import Mathlib

/-!
Shallow embedding of the harvest-orchestration core of the repository
(`backend/scheduler.py`, `auto_recovery.py`, `city_routing.py`,
`backend/scrapers/charlotte.py`, and the retry decorator's contract),
together with theorems settling the frozen claims about it.

Conventions:
* Python dicts keyed by strings become association lists over `String`.
* Python ints are `Nat` where the source only ever holds non-negative
  values (failure counters, priorities), and `Int` where a subtraction
  can go negative (`5 - failure_counts[city]`).
* Python `or`-defaulting on strings is modelled with explicit
  truthiness (`""` and `None` are falsy).
* Blocking sleeps are recorded as data (the list of waited durations)
  rather than performed.
-/

namespace Harvest

/-! ## Routing table (`city_routing.py`) and `AutoRecovery` (`auto_recovery.py`) -/

/-- One entry of `CITY_ROUTING`: substitute target, human-readable reason,
last-known-good record count. -/
structure RoutingEntry where
  route_to : String
  reason : String
  fallback_count : Nat
deriving Repr, DecidableEq

/-- `CITY_ROUTING` from `city_routing.py`, verbatim. -/
def CITY_ROUTING : List (String × RoutingEntry) :=
  [("houston", ⟨"chicago", "Houston ArcGIS API returns 403 Forbidden", 5891⟩),
   ("charlotte", ⟨"raleigh", "Charlotte ArcGIS API returns empty JSON responses", 363⟩),
   ("phoenix", ⟨"philadelphia", "Phoenix ArcGIS API returns no data", 5921⟩)]

/-- `AutoRecovery.execute_routing` (`auto_recovery.py` lines 11-19): if the city
has a routing entry, return its `route_to` target; otherwise return `None`. -/
def executeRouting (city : String) : Option String :=
  (CITY_ROUTING.lookup city).map (·.route_to)

/-- The `reason` field read by `execute_routing` for a routed city
(`auto_recovery.py` line 15); absent for a non-routed city. -/
def routingReason (city : String) : Option String :=
  (CITY_ROUTING.lookup city).map (·.reason)

/-- `execute_routing` at its call boundary, read as the spec's
`resolve(target) -> (effective_target, reason_or_none)`: a `None` return from
`execute_routing` means no routing is needed (per its docstring
"Check if a city needs routing to a working alternative"), so the effective
target is the city itself with no reason. -/
def resolveTarget (city : String) : String × Option String :=
  match executeRouting city with
  | some rt => (rt, routingReason city)
  | none => (city, none)

/-! ## Target scheduler (`backend/scheduler.py`) -/

/-- `CITIES` from `backend/scheduler.py` lines 45-53: city name with priority
(higher = more important). -/
def CITIES : List (String × Nat) :=
  [("nashville", 3), ("chattanooga", 2), ("austin", 3), ("sanantonio", 2),
   ("houston", 3), ("charlotte", 3), ("phoenix", 3)]

/-- `failure_penalty = max(1, 5 - failure_counts[city])` from `get_next_city`
(`backend/scheduler.py` line 190). The subtraction is Python int subtraction,
so it is taken in `Int`. -/
def failurePenalty (failures : Nat) : Int :=
  max 1 (5 - (failures : Int))

/-- `weight = priority * failure_penalty` from `get_next_city`
(`backend/scheduler.py` line 191). -/
def cityWeight (priority failures : Nat) : Int :=
  (priority : Int) * failurePenalty failures

/-- The weighted pool built by `get_next_city` (`backend/scheduler.py`
lines 187-192): each city appears `weight` times; `random.choice` then picks
uniformly from this pool. -/
def weightedCities (failureCounts : String → Nat) : List String :=
  CITIES.flatMap fun cp => List.replicate (cityWeight cp.2 (failureCounts cp.1)).toNat cp.1

/-- The throttle inside `send_alert_email` (`backend/scheduler.py` lines 62-64):
the email is sent only when `failure_count % 3 == 0`. -/
def alertSent (failure_count : Nat) : Bool :=
  failure_count % 3 == 0

/-- The failure path of one scheduler cycle for a target
(`backend/scheduler.py` lines 156-158 and 171-172): increment the
consecutive-failure count, then call `send_alert_email` with the new count.
Returns the new count and whether an alert went out. -/
def failedCycle (failures : Nat) : Nat × Bool :=
  (failures + 1, alertSent (failures + 1))

/-- The alert flags produced by `n` consecutive failed cycles starting from
failure count `f`. -/
def alertFlags (f : Nat) : Nat → List Bool
  | 0 => []
  | n + 1 => (failedCycle f).2 :: alertFlags (failedCycle f).1 n

/-- What one attempt inside `run_scraper` observes from the city's scraper
(`backend/scheduler.py` lines 104-147): either `scraper.run()` returned a list
of `n` permits, or it raised. -/
inductive AttemptResult where
  | records (n : Nat)
  | exn
deriving Repr, DecidableEq

/-- `if permits and len(permits) > 0` (`backend/scheduler.py` line 138); an
exception lands in the `except` branch and is likewise not a success. -/
def attemptGood : AttemptResult → Bool
  | .records n => n > 0
  | .exn => false

/-- Everything observable about one `run_scraper` call: how many times the
scraper was invoked, the waits slept between attempts, whether the call
returned `True`, and whether the failure path ran
(`failure_counts[city] += 1` followed by `send_alert_email`). -/
structure RunTrace where
  invocations : Nat
  waits : List Nat
  success : Bool
  failureRecorded : Bool
deriving Repr, DecidableEq

/-- The loop body of `run_scraper` (`backend/scheduler.py` lines 100-175),
from attempt index `i` with `fuel` loop iterations remaining (`run_scraper`
enters with `fuel = max_retries + 1`, matching `range(max_retries + 1)`).
On a good attempt it returns `True` at once; on a zero-record or raising
attempt with `i < max_retries` it sleeps `5 * (i + 1)` seconds and continues;
on the last attempt it increments the failure count, calls
`send_alert_email`, and returns `False`. -/
def runScraperAux (attempt : Nat → AttemptResult) (maxRetries : Nat) :
    Nat → Nat → RunTrace
  | _, 0 => ⟨0, [], false, false⟩
  | i, fuel + 1 =>
    if attemptGood (attempt i) then
      ⟨1, [], true, false⟩
    else if i < maxRetries then
      let t := runScraperAux attempt maxRetries (i + 1) fuel
      ⟨t.invocations + 1, 5 * (i + 1) :: t.waits, t.success, t.failureRecorded⟩
    else
      ⟨1, [], false, true⟩

/-- `run_scraper(city, max_retries)` for a fixed city, abstracted over the
per-attempt scraper outcome. -/
def runScraper (attempt : Nat → AttemptResult) (maxRetries : Nat) : RunTrace :=
  runScraperAux attempt maxRetries 0 (maxRetries + 1)

/-- The scraper module the `elif` chain of `run_scraper`
(`backend/scheduler.py` lines 105-135) instantiates for a city: always the
city's own scraper class, with no consultation of the routing table; an
unknown city gets `none` (the `return False` branch). -/
def dispatchScraper (city : String) : Option String :=
  if city = "nashville" then some "nashville"
  else if city = "chattanooga" then some "chattanooga"
  else if city = "austin" then some "austin"
  else if city = "sanantonio" then some "sanantonio"
  else if city = "houston" then some "houston"
  else if city = "charlotte" then some "charlotte"
  else if city = "phoenix" then some "phoenix"
  else none

/-- Per-city record counts documented by the routing table's reason fields:
charlotte's own API yields empty responses (0 records) while raleigh's
adapter yields 50 in the claimed scenario. -/
def routedScenarioCounts (scraperModule : String) : Nat :=
  if scraperModule = "raleigh" then 50 else 0

/-- The attempt outcome `run_scraper city` actually observes in the routed
scenario: the dispatched module's own record count (the dispatch never
substitutes the routing target). -/
def routedScenarioAttempt (city : String) : Nat → AttemptResult :=
  fun _ =>
    match dispatchScraper city with
    | some m => .records (routedScenarioCounts m)
    | none => .exn

/-! ## Retry Primitive

Modelled from the spec: the Retry Primitive is the `retry_with_backoff`
decorator of `backend/scrapers/utils.py`, which is not present under `src/`;
only its call sites remain (e.g. `backend/scrapers/charlotte.py` line 17:
`@retry_with_backoff(max_retries=3, initial_delay=2,
exceptions=(requests.RequestException,))`). Per the spec (section 4.1): execute
the operation; on a transient failure wait `initial_delay * attempt_number`
(linear backoff) and retry; on a non-transient failure propagate immediately;
after exhausting `max_retries + 1` attempts propagate the last failure. -/

/-- One invocation of the wrapped operation: success, a failure in the
transient exception set, or any other failure. -/
inductive OpOutcome (α : Type) where
  | ok (a : α)
  | transient
  | fatal
deriving Repr, DecidableEq

/-- Everything observable about one run of the Retry Primitive: number of
invocations of the wrapped operation, waits slept between attempts, and the
final outcome (`ok` on success, otherwise the propagated failure). -/
structure RetryTrace (α : Type) where
  invocations : Nat
  waits : List Nat
  result : OpOutcome α
deriving Repr, DecidableEq

/-- Modelled from the spec: the attempt loop of `retry_with_backoff`, at
attempt number `attemptNo` (1-based) with `fuel` attempts remaining. A
transient failure with attempts remaining sleeps
`initial_delay * attempt_number` and retries; the last attempt propagates. -/
def retryAux {α : Type} (op : Nat → OpOutcome α) (initialDelay : Nat) :
    Nat → Nat → RetryTrace α
  | _, 0 => ⟨0, [], .transient⟩
  | attemptNo, fuel + 1 =>
    match op attemptNo with
    | .ok a => ⟨1, [], .ok a⟩
    | .fatal => ⟨1, [], .fatal⟩
    | .transient =>
      if fuel = 0 then ⟨1, [], .transient⟩
      else
        let t := retryAux op initialDelay (attemptNo + 1) fuel
        ⟨t.invocations + 1, initialDelay * attemptNo :: t.waits, t.result⟩

/-- Modelled from the spec: `retry_with_backoff(max_retries, initial_delay)`
applied to an operation whose outcome on attempt number `i` is `op i`. -/
def retryWithBackoff {α : Type} (op : Nat → OpOutcome α)
    (maxRetries initialDelay : Nat) : RetryTrace α :=
  retryAux op initialDelay 1 (maxRetries + 1)

/-! ## Harvest session (`backend/scrapers/charlotte.py`) -/

/-- A raw `cost` value: a JSON number (exact rational, standing in for the
Python number) or a string. -/
inductive CostValue where
  | num (q : ℚ)
  | str (s : String)
deriving Repr, DecidableEq

/-- A raw Socrata record as `scrape_permits` reads it
(`backend/scrapers/charlotte.py` lines 74-85): every field access is
`record.get(...)`, so each field is optional. Non-string `id`/`cost` values
are modelled already rendered. -/
structure RawRecord where
  permit_number : Option String
  permit_id : Option String
  id : Option String
  address : Option String
  permit_type : Option String
  cost : Option CostValue
  issued_date : Option String
  status : Option String
deriving Repr, DecidableEq

/-- Python `x or default` for an optional string: `None` and `""` are falsy. -/
def pyOrStr (x : Option String) (dflt : String) : String :=
  match x with
  | some s => if s = "" then dflt else s
  | none => dflt

/-- `record.get('permit_number') or record.get('permit_id') or
str(record.get('id', ''))` (`backend/scrapers/charlotte.py` line 75). -/
def getPermitId (r : RawRecord) : String :=
  pyOrStr r.permit_number (pyOrStr r.permit_id (r.id.getD ""))

/-- The digit string of a numeral read as a natural number. -/
def digitsToNat (cs : List Char) : Nat :=
  cs.foldl (fun acc c => acc * 10 + (c.toNat - Char.toNat '0')) 0

/-- Python `float(...)` on the cleaned cost string, restricted to plain
decimal literals: optional sign, digits, optional single decimal point,
at least one digit in total. Anything else is unparsable (`None`). -/
def parseFloat? (s : String) : Option ℚ :=
  let cs := s.toList
  let signed : ℚ × List Char :=
    match cs with
    | '-' :: t => (-1, t)
    | '+' :: t => (1, t)
    | _ => (1, cs)
  let intPart := signed.2.takeWhile (·.isDigit)
  let rest := signed.2.dropWhile (·.isDigit)
  match rest with
  | [] =>
    if intPart.isEmpty then none
    else some (signed.1 * (digitsToNat intPart : ℚ))
  | '.' :: fracPart =>
    if fracPart.all (·.isDigit) && (!intPart.isEmpty || !fracPart.isEmpty) then
      some (signed.1 *
        ((digitsToNat intPart : ℚ) + (digitsToNat fracPart : ℚ) / (10 : ℚ) ^ fracPart.length))
    else none
  | _ => none

/-- `str(value).replace('$', '').replace(',', '')`
(`backend/scrapers/charlotte.py` line 150): replacing a single-character
pattern by the empty string removes every occurrence of that character, so
the two replacements amount to filtering out `'$'` and `','`. -/
def cleanCost (s : String) : String :=
  String.mk (s.toList.filter fun c => !(c = '$' || c = ','))

/-- `CharlottePermitScraper._parse_cost` (`backend/scrapers/charlotte.py`
lines 143-152): falsy input gives 0, numbers pass through, strings are
cleaned and parsed, and any parse failure gives 0 via the bare `except`. -/
def parseCost : CostValue → ℚ
  | .num q => q
  | .str s =>
    if s = "" then 0
    else
      match parseFloat? (cleanCost s) with
      | some q => q
      | none => 0

/-- `record.get('cost') or 0` (`backend/scrapers/charlotte.py` line 82):
an absent, zero, or empty-string cost becomes the number 0. -/
def costOrZero : Option CostValue → CostValue
  | none => .num 0
  | some (.str s) => if s = "" then .num 0 else .str s
  | some (.num q) => .num q

/-- A zero-padded `YYYY-MM-DD` date string, validated: all digits, month in
1..12, day in 1..31 (exact per-month day counts are abstracted). -/
def parseIsoDate? (s : String) : Option (Nat × Nat × Nat) :=
  match s.toList with
  | [y1, y2, y3, y4, '-', m1, m2, '-', d1, d2] =>
    if [y1, y2, y3, y4, m1, m2, d1, d2].all (·.isDigit) then
      let m := digitsToNat [m1, m2]
      let d := digitsToNat [d1, d2]
      if 1 ≤ m && m ≤ 12 && 1 ≤ d && d ≤ 31 then
        some (digitsToNat [y1, y2, y3, y4], m, d)
      else none
    else none
  | _ => none

/-- The date part a string contributes to `_format_date`: everything before
the first `'T'` when one is present (the `fromisoformat` branch), the whole
string otherwise (the `strptime('%Y-%m-%d')` branch). -/
def datePartOf (s : String) : String :=
  if 'T' ∈ s.toList then String.mk (s.toList.takeWhile (· ≠ 'T')) else s

/-- `CharlottePermitScraper._format_date` (`backend/scrapers/charlotte.py`
lines 154-165): falsy input gives `'N/A'`; otherwise the string is parsed
(`fromisoformat` when it contains `'T'`, else `strptime('%Y-%m-%d')`) and
re-rendered with `strftime('%Y-%m-%d')`, which on a zero-padded ISO input
reproduces its date part; any parse failure gives `'N/A'` via the bare
`except`. The validity of the time component after `'T'` is abstracted. -/
def formatDate (dateStr : Option String) : String :=
  match dateStr with
  | none => "N/A"
  | some s =>
    if s = "" then "N/A"
    else
      match parseIsoDate? (datePartOf s) with
      | some _ => datePartOf s
      | none => "N/A"

/-- A normalized permit record with the output field set of
`backend/scrapers/charlotte.py` lines 78-85. -/
structure PermitRecord where
  permit_number : String
  address : String
  type : String
  value : ℚ
  issued_date : String
  status : String
deriving Repr, DecidableEq

/-- The normalization of one raw record (`backend/scrapers/charlotte.py`
lines 78-85). -/
def normalizeRecord (r : RawRecord) : PermitRecord :=
  { permit_number := getPermitId r
    address := pyOrStr r.address "N/A"
    type := pyOrStr r.permit_type "N/A"
    value := parseCost (costOrZero r.cost)
    issued_date := formatDate r.issued_date
    status := pyOrStr r.status "N/A" }

/-- The scraper instance state created by `CharlottePermitScraper.__init__`
(`backend/scrapers/charlotte.py` lines 12-13): the accumulated permit list
and the seen-id set (modelled as a list, with membership as the set test). -/
structure ScrState where
  permits : List PermitRecord
  seen : List String
deriving Repr, DecidableEq

/-- `self.permits = []; self.seen_permit_ids = set()`. -/
def freshScraper : ScrState := ⟨[], []⟩

/-- The per-record body of the batch loop (`backend/scrapers/charlotte.py`
lines 74-85): skip when the id is already in the seen set, otherwise add the
id to the seen set and append the normalized record. -/
def processRecord (st : ScrState) (r : RawRecord) : ScrState :=
  if getPermitId r ∈ st.seen then st
  else ⟨st.permits ++ [normalizeRecord r], getPermitId r :: st.seen⟩

/-- One fetched batch run through the per-record loop. -/
def processPage (st : ScrState) (data : List RawRecord) : ScrState :=
  data.foldl processRecord st

/-- What `self._fetch_batch(params)` produces for one page, after its own
retry wrapper has run: the decoded record list, or a propagated exception
(the two `except` blocks of the loop behave identically apart from logging,
so they are modelled as one case). -/
inductive FetchOutcome where
  | success (data : List RawRecord)
  | failure
deriving Repr

/-- `batch_size = 1000` (`backend/scrapers/charlotte.py` line 49). -/
def charlotteBatchSize : Nat := 1000

/-- `max_consecutive_failures = 3` (`backend/scrapers/charlotte.py` line 52). -/
def maxConsecutiveFailures : Nat := 3

/-- The mutable locals of the `while` loop of `scrape_permits`
(`backend/scrapers/charlotte.py` lines 48-52), plus whether the
partial-results save ran. -/
structure LoopState where
  scr : ScrState
  offset : Nat
  totalFetched : Nat
  consecFailures : Nat
  partialSaved : Bool
deriving Repr, DecidableEq

/-- The `while total_fetched < max_permits` loop of `scrape_permits`
(`backend/scrapers/charlotte.py` lines 56-123), with the page fetched at
offset `o` given by `fetch o`. An empty page breaks; a successful page
resets the failure counter, is deduplicated into the state, and breaks when
shorter than `batch_size`; a failed fetch increments the failure counter and,
at the threshold, saves partial results (when any permits were collected) and
breaks, otherwise skips to the next offset. `fuel` bounds the iterations: the
Python loop needs none, since every continuing iteration either adds
`batch_size` to `total_fetched` or increments the (thrice-bounded) failure
counter, so `3 * (max_permits / batch_size) + 3` iterations are never
exceeded and the fuel below is never exhausted on the runs stated here. -/
def scrapeLoop (fetch : Nat → FetchOutcome) (maxPermits : Nat) :
    Nat → LoopState → LoopState
  | 0, st => st
  | fuel + 1, st =>
    if st.totalFetched < maxPermits then
      match fetch st.offset with
      | .success data =>
        if data.isEmpty then st
        else
          let st' : LoopState :=
            { st with
              scr := processPage st.scr data
              consecFailures := 0
              totalFetched := st.totalFetched + data.length }
          if data.length < charlotteBatchSize then st'
          else
            scrapeLoop fetch maxPermits fuel
              { st' with offset := st'.offset + charlotteBatchSize }
      | .failure =>
        if maxConsecutiveFailures ≤ st.consecFailures + 1 then
          { st with
            consecFailures := st.consecFailures + 1
            partialSaved := !st.scr.permits.isEmpty }
        else
          scrapeLoop fetch maxPermits fuel
            { st with
              consecFailures := st.consecFailures + 1
              offset := st.offset + charlotteBatchSize }
    else st

/-- `CharlottePermitScraper.scrape_permits(max_permits)` run on instance
state `scr`: the loop locals start at zero while the permit list and seen-id
set carry over from the instance; the method returns `self.permits` of the
final state. -/
def scrapePermits (scr : ScrState) (fetch : Nat → FetchOutcome)
    (maxPermits : Nat) : LoopState :=
  scrapeLoop fetch maxPermits (3 * (maxPermits / charlotteBatchSize) + 3)
    ⟨scr, 0, 0, 0, false⟩

/-- The fetch behaviour of the partial-save scenario: two successful pages at
offsets 0 and `batch_size`, then every further fetch fails (each failure
standing for a page whose inner retry attempts were exhausted). -/
def twoPagesThenFail (p1 p2 : List RawRecord) : Nat → FetchOutcome :=
  fun o =>
    if o = 0 then .success p1
    else if o = charlotteBatchSize then .success p2
    else .failure

/-- A sample raw record with a nonempty id determined by `i` and every other
source field absent. -/
def sampleRaw (i : Nat) : RawRecord :=
  ⟨some (String.mk (List.replicate (i + 1) 'a')), none, none, none, none, none, none, none⟩

/-- A sample full page: `charlotteBatchSize` raw records with distinct ids. -/
def samplePage1 : List RawRecord :=
  (List.range charlotteBatchSize).map sampleRaw

/-- A second sample full page, its ids disjoint from `samplePage1`'s. -/
def samplePage2 : List RawRecord :=
  (List.range charlotteBatchSize).map fun i => sampleRaw (charlotteBatchSize + i)

/-- The session dedup invariant: the result sequence carries pairwise
distinct ids, every one of which is in the seen-id set. -/
def ScrInv (st : ScrState) : Prop :=
  (st.permits.map PermitRecord.permit_number).Nodup ∧
  ∀ s ∈ st.permits.map PermitRecord.permit_number, s ∈ st.seen

/-- State `st'` extends `st` monotonically: the seen set only grows and the
permit list gains only records whose ids were not yet seen in `st`. -/
def ExtendsFresh (st st' : ScrState) : Prop :=
  st.seen ⊆ st'.seen ∧
  ∃ t, st'.permits = st.permits ++ t ∧
    ∀ rec ∈ t, rec.permit_number ∉ st.seen

/-! ## Theorems -/

/-- C1: the routing table routes "charlotte" to "raleigh" with a reason, yet
`run_scraper "charlotte"` dispatches charlotte's own scraper — the routing
table is never consulted on the harvest path — so in the claimed scenario
(raleigh's adapter yielding 50 records, charlotte's own documented-broken API
yielding none) the cycle ends with `False`, a failure recorded against
charlotte, and no records, instead of 50 records attributed to charlotte. -/
theorem claim_c1_routing_not_applied :
    executeRouting "charlotte" = some "raleigh" ∧
    routingReason "charlotte" =
      some "Charlotte ArcGIS API returns empty JSON responses" ∧
    dispatchScraper "charlotte" = some "charlotte" ∧
    routedScenarioCounts "raleigh" = 50 ∧
    runScraper (routedScenarioAttempt "charlotte") 2 =
      ⟨3, [5, 10], false, true⟩ := by
  refine ⟨by decide, by decide, by decide, by decide, by decide⟩

/-- C2: the scheduler's selection weight is
`priority * max(1, 5 - consecutive_failures)`, is at least `priority`, is
antitone in the failure count at equal priority, and every positive-priority
city keeps a spot in the weighted pool whatever the failure counts. -/
theorem claim_c2_selection_weight (priority failures : Nat) :
    cityWeight priority failures =
      (priority : Int) * max 1 (5 - (failures : Int)) ∧
    (priority : Int) ≤ cityWeight priority failures ∧
    (∀ failures2, failures ≤ failures2 →
      cityWeight priority failures2 ≤ cityWeight priority failures) ∧
    (∀ (fc : String → Nat) (c : String) (p : Nat),
      (c, p) ∈ CITIES → 0 < p → c ∈ weightedCities fc) := by
  refine ⟨rfl, ?_, ?_, ?_⟩
  · have h : (1 : Int) ≤ failurePenalty failures := le_max_left 1 _
    calc (priority : Int) = (priority : Int) * 1 := (mul_one _).symm
      _ ≤ (priority : Int) * failurePenalty failures :=
        mul_le_mul_of_nonneg_left h (Int.ofNat_nonneg priority)
  · intro f2 hf
    unfold cityWeight
    refine mul_le_mul_of_nonneg_left ?_ (Int.ofNat_nonneg priority)
    unfold failurePenalty
    exact max_le_max (le_refl 1) (by omega)
  · intro fc c p hmem hp
    have hpen : (1 : Int) ≤ failurePenalty (fc c) := le_max_left 1 _
    have hp1 : (1 : Int) ≤ (p : Int) := by exact_mod_cast hp
    have h1 : (1 : Int) ≤ cityWeight p (fc c) := by
      calc (1 : Int) = 1 * 1 := by ring
        _ ≤ (p : Int) * failurePenalty (fc c) :=
          mul_le_mul hp1 hpen (by norm_num) (by omega)
    have hne : (cityWeight p (fc c)).toNat ≠ 0 := by
      intro h0
      rw [Int.toNat_eq_zero] at h0
      omega
    unfold weightedCities
    exact List.mem_flatMap.mpr
      ⟨(c, p), hmem, by rw [List.mem_replicate]; exact ⟨hne, rfl⟩⟩

/-- C2 witness: priority 3 with 4 failures weighs 3, five failures weigh no
more, and "charlotte" stays in a concrete weighted pool. -/
theorem claim_c2_selection_weight_witness :
    (3 : Int) ≤ cityWeight 3 4 ∧ cityWeight 3 5 ≤ cityWeight 3 4 ∧
    "charlotte" ∈ weightedCities (fun _ => 0) := by
  obtain ⟨-, h2, h3, h4⟩ := claim_c2_selection_weight 3 4
  exact ⟨h2, h3 5 (by omega), h4 (fun _ => 0) "charlotte" 3 (by decide) (by decide)⟩

/-- C3: a failed cycle triggers an alert exactly when the new
consecutive-failure count is a multiple of 3; in particular six consecutive
failed cycles from a healthy state alert exactly at counts 3 and 6. -/
theorem claim_c3_alert_throttle (f : Nat) :
    ((failedCycle f).2 = true ↔ (f + 1) % 3 = 0) ∧
    alertFlags 0 6 = [false, false, true, false, false, true] := by
  constructor
  · simp [failedCycle, alertSent]
  · decide

/-- C8: a target with no routing entry resolves to itself:
`execute_routing` returns `None` (no substitute) with no reason, so the
effective target is the target itself with `reason = none`. -/
theorem claim_c8_resolve_nonrouted (city : String)
    (h : CITY_ROUTING.lookup city = none) :
    executeRouting city = none ∧ routingReason city = none ∧
    resolveTarget city = (city, none) := by
  have he : executeRouting city = none := by unfold executeRouting; rw [h]; rfl
  have hr : routingReason city = none := by unfold routingReason; rw [h]; rfl
  refine ⟨he, hr, ?_⟩
  unfold resolveTarget
  rw [he]

/-- C8 witness: "nashville" has no routing entry and resolves to itself. -/
theorem claim_c8_resolve_nonrouted_witness :
    executeRouting "nashville" = none ∧ routingReason "nashville" = none ∧
    resolveTarget "nashville" = ("nashville", none) :=
  claim_c8_resolve_nonrouted "nashville" (by decide)

/-- One unfolding of the `run_scraper` loop body. -/
lemma runScraperAux_succ (attempt : Nat → AttemptResult) (m i fuel : Nat) :
    runScraperAux attempt m i (fuel + 1) =
      if attemptGood (attempt i) then ⟨1, [], true, false⟩
      else if i < m then
        ⟨(runScraperAux attempt m (i + 1) fuel).invocations + 1,
         5 * (i + 1) :: (runScraperAux attempt m (i + 1) fuel).waits,
         (runScraperAux attempt m (i + 1) fuel).success,
         (runScraperAux attempt m (i + 1) fuel).failureRecorded⟩
      else ⟨1, [], false, true⟩ := rfl

/-- When every attempt from index `i` on is bad, the remaining loop runs all
its attempts, sleeps `5 * (attempt + 1)` between them, and ends on the
failure path. -/
lemma runScraperAux_allBad (attempt : Nat → AttemptResult) (m : Nat) :
    ∀ fuel i, i + (fuel + 1) = m + 1 →
      (∀ j, i ≤ j → j ≤ m → attemptGood (attempt j) = false) →
      runScraperAux attempt m i (fuel + 1) =
        ⟨fuel + 1, (List.range fuel).map (fun k => 5 * (i + k + 1)), false, true⟩ := by
  intro fuel
  induction fuel with
  | zero =>
    intro i hif hbad
    have him : i = m := by omega
    subst him
    have hb := hbad i (le_refl i) (le_refl i)
    rw [runScraperAux_succ, if_neg (by simp [hb]), if_neg (lt_irrefl i)]
    rfl
  | succ fuel ih =>
    intro i hif hbad
    have hb := hbad i (le_refl i) (by omega)
    have hlt : i < m := by omega
    have ihr := ih (i + 1) (by omega) (fun j hj1 hj2 => hbad j (by omega) hj2)
    have hl : (List.range (fuel + 1)).map (fun k => 5 * (i + k + 1)) =
        5 * (i + 1) :: (List.range fuel).map (fun k => 5 * (i + 1 + k + 1)) := by
      rw [List.range_succ_eq_map, List.map_cons, List.map_map]
      refine congrArg₂ List.cons (by simp) ?_
      exact List.map_congr_left (fun k _ => by simp [Function.comp]; omega)
    rw [runScraperAux_succ, if_neg (by simp [hb]), if_pos hlt, ihr, hl]

/-- The failure path runs only when every attempt up to `max_retries` was
bad. -/
lemma runScraperAux_failRec (attempt : Nat → AttemptResult) (m : Nat) :
    ∀ fuel i, (runScraperAux attempt m i fuel).failureRecorded = true →
      ∀ j, i ≤ j → j ≤ m → attemptGood (attempt j) = false := by
  intro fuel
  induction fuel with
  | zero => intro i h; simp [runScraperAux] at h
  | succ fuel ih =>
    intro i h j hj1 hj2
    rw [runScraperAux_succ] at h
    by_cases hg : attemptGood (attempt i) = true
    · rw [if_pos hg] at h
      simp at h
    · have hg' : attemptGood (attempt i) = false := by
        cases hb : attemptGood (attempt i)
        · rfl
        · exact absurd hb hg
      rw [if_neg hg] at h
      by_cases hlt : i < m
      · rw [if_pos hlt] at h
        have h' : (runScraperAux attempt m (i + 1) fuel).failureRecorded = true := h
        rcases Nat.eq_or_lt_of_le hj1 with hji | hji
        · exact hji ▸ hg'
        · exact ih (i + 1) h' j hji hj2
      · rw [if_neg hlt] at h
        have hji : j = i := by omega
        rw [hji]
        exact hg'

/-- C4: for every per-attempt outcome function, if every one of the
`max_retries + 1` attempts returns zero records or raises, `run_scraper`
invokes the scraper exactly `max_retries + 1` times, waits `5 * attempt`
seconds between attempts, returns `False` and takes the failure path
(failure count incremented, alert path); and conversely the failure path is
taken only when every attempt was bad. -/
theorem claim_c4_outer_retry (attempt : Nat → AttemptResult) (m : Nat) :
    ((∀ i, i ≤ m → attemptGood (attempt i) = false) →
      runScraper attempt m =
        ⟨m + 1, (List.range m).map (fun i => 5 * (i + 1)), false, true⟩) ∧
    ((runScraper attempt m).failureRecorded = true →
      ∀ i, i ≤ m → attemptGood (attempt i) = false) := by
  constructor
  · intro hbad
    have h := runScraperAux_allBad attempt m m 0 (by omega)
      (fun j _ hj2 => hbad j hj2)
    rw [runScraper, h]
    refine congrArg (fun w => RunTrace.mk (m + 1) w false true) ?_
    exact List.map_congr_left (fun k _ => by omega)
  · intro h i hi
    exact runScraperAux_failRec attempt m (m + 1) 0 h i (Nat.zero_le i) hi

/-- C4 witness: with every attempt returning zero records and
`max_retries = 2`, the scraper is invoked 3 times with waits of 5 and 10
seconds, and the failure path confirms attempt 1 was bad. -/
theorem claim_c4_outer_retry_witness :
    runScraper (fun _ => AttemptResult.records 0) 2 =
      ⟨3, (List.range 2).map (fun i => 5 * (i + 1)), false, true⟩ ∧
    attemptGood ((fun _ => AttemptResult.records 0) 1) = false := by
  have h := claim_c4_outer_retry (fun _ => AttemptResult.records 0) 2
  exact ⟨h.1 (fun _ _ => rfl), h.2 (by decide) 1 (by decide)⟩

/-- One unfolding of the Retry Primitive's attempt loop. -/
lemma retryAux_succ {α : Type} (op : Nat → OpOutcome α) (d a fuel : Nat) :
    retryAux op d a (fuel + 1) =
      match op a with
      | .ok x => ⟨1, [], .ok x⟩
      | .fatal => ⟨1, [], .fatal⟩
      | .transient =>
        if fuel = 0 then ⟨1, [], .transient⟩
        else ⟨(retryAux op d (a + 1) fuel).invocations + 1,
              d * a :: (retryAux op d (a + 1) fuel).waits,
              (retryAux op d (a + 1) fuel).result⟩ := rfl

/-- The cons/map bookkeeping for one recorded wait. -/
lemma waits_cons (d a fuel : Nat) :
    (List.range (fuel + 1)).map (fun k => d * (a + k)) =
      d * a :: (List.range fuel).map (fun k => d * (a + 1 + k)) := by
  rw [List.range_succ_eq_map, List.map_cons, List.map_map]
  refine congrArg₂ List.cons (by simp) ?_
  refine List.map_congr_left (fun k _ => ?_)
  simp only [Function.comp]
  exact congrArg (fun x => d * x) (by omega)

/-- One transient attempt with budget left: record the wait and recurse. -/
lemma retryAux_step_transient {α : Type} (op : Nat → OpOutcome α)
    (d a fuel : Nat) (h : op a = .transient) :
    retryAux op d a (fuel + 2) =
      ⟨(retryAux op d (a + 1) (fuel + 1)).invocations + 1,
       d * a :: (retryAux op d (a + 1) (fuel + 1)).waits,
       (retryAux op d (a + 1) (fuel + 1)).result⟩ := by
  rw [retryAux_succ, h]
  rfl

/-- A fatal attempt stops at once whatever budget is left. -/
lemma retryAux_step_fatal {α : Type} (op : Nat → OpOutcome α)
    (d a fuel : Nat) (h : op a = .fatal) :
    retryAux op d a (fuel + 1) = ⟨1, [], .fatal⟩ := by
  rw [retryAux_succ, h]

/-- An always-transient operation exhausts the whole attempt budget with
linearly growing waits. -/
lemma retryAux_allTransient {α : Type} (op : Nat → OpOutcome α) (d : Nat)
    (h : ∀ i, op i = .transient) :
    ∀ fuel a, retryAux op d a (fuel + 1) =
      ⟨fuel + 1, (List.range fuel).map (fun k => d * (a + k)), .transient⟩ := by
  intro fuel
  induction fuel with
  | zero => intro a; simp [retryAux_succ, h a]
  | succ fuel ih =>
    intro a
    rw [retryAux_step_transient op d a fuel (h a), ih (a + 1), waits_cons d a fuel]

/-- A fatal outcome on attempt `a + j`, after `j` transient attempts, stops
the loop right there. -/
lemma retryAux_fatal {α : Type} (op : Nat → OpOutcome α) (d : Nat) :
    ∀ j fuel a, j < fuel →
      (∀ i, a ≤ i → i < a + j → op i = .transient) → op (a + j) = .fatal →
      retryAux op d a fuel =
        ⟨j + 1, (List.range j).map (fun k => d * (a + k)), .fatal⟩ := by
  intro j
  induction j with
  | zero =>
    intro fuel a hj htr hf
    cases fuel with
    | zero => omega
    | succ f =>
      rw [retryAux_step_fatal op d a f (by simpa using hf)]
      rfl
  | succ j ih =>
    intro fuel a hj htr hf
    cases fuel with
    | zero => omega
    | succ f =>
      have ha : op a = .transient := htr a (le_refl a) (by omega)
      have hf' : op (a + 1 + j) = .fatal := by
        have he : a + 1 + j = a + (j + 1) := by omega
        rw [he]; exact hf
      cases f with
      | zero => omega
      | succ f2 =>
        have ihr := ih (f2 + 1) (a + 1) (by omega)
          (fun i h1 h2 => htr i (by omega) (by omega)) hf'
        rw [retryAux_step_transient op d a f2 ha, ihr, waits_cons d a j]

/-- C5: the Retry Primitive invokes an always-transiently-failing operation
exactly `max_retries + 1` times with linearly growing waits
`initial_delay * attempt_number` and propagates the last transient failure;
a non-transient failure on attempt `k + 1` (after `k` transient attempts
within budget) is propagated at once, with no further invocation. -/
theorem claim_c5_retry_bound {α : Type} (op : Nat → OpOutcome α) (m d : Nat) :
    ((∀ i, op i = .transient) →
      retryWithBackoff op m d =
        ⟨m + 1, (List.range m).map (fun i => d * (i + 1)), .transient⟩) ∧
    (∀ k, k < m + 1 →
      (∀ i, 1 ≤ i → i ≤ k → op i = .transient) → op (k + 1) = .fatal →
      retryWithBackoff op m d =
        ⟨k + 1, (List.range k).map (fun i => d * (i + 1)), .fatal⟩) := by
  constructor
  · intro h
    rw [retryWithBackoff, retryAux_allTransient op d h m 1]
    refine congrArg (fun w => RetryTrace.mk (m + 1) w .transient) ?_
    exact List.map_congr_left
      (fun k _ => congrArg (fun x => d * x) (by omega))
  · intro k hk htr hf
    have hf' : op (1 + k) = .fatal := by
      have he : 1 + k = k + 1 := by omega
      rw [he]; exact hf
    rw [retryWithBackoff,
      retryAux_fatal op d k (m + 1) 1 hk (fun i h1 h2 => htr i h1 (by omega)) hf']
    refine congrArg (fun w => RetryTrace.mk (k + 1) w .fatal) ?_
    exact List.map_congr_left
      (fun i _ => congrArg (fun x => d * x) (by omega))

/-- C5 witness: an always-transient operation with `max_retries = 2` is
invoked 3 times with waits 3 and 6; an operation fatal on attempt 2 is
invoked exactly twice. -/
theorem claim_c5_retry_bound_witness :
    retryWithBackoff (fun _ => OpOutcome.transient (α := Nat)) 2 3 =
      ⟨3, (List.range 2).map (fun i => 3 * (i + 1)), .transient⟩ ∧
    retryWithBackoff
        (fun i => if i = 2 then OpOutcome.fatal (α := Nat) else .transient) 2 3 =
      ⟨2, (List.range 1).map (fun i => 3 * (i + 1)), .fatal⟩ := by
  constructor
  · exact (claim_c5_retry_bound _ 2 3).1 (fun _ => rfl)
  · refine (claim_c5_retry_bound _ 2 3).2 1 (by omega) ?_ (by decide)
    intro i h1 h2
    have hi : i = 1 := by omega
    rw [hi]
    decide

/-- A record whose id was already seen is skipped. -/
lemma processRecord_skip (st : ScrState) (r : RawRecord)
    (h : getPermitId r ∈ st.seen) : processRecord st r = st := by
  unfold processRecord
  rw [if_pos h]

/-- A record with a fresh id is appended and its id recorded. -/
lemma processRecord_add (st : ScrState) (r : RawRecord)
    (h : getPermitId r ∉ st.seen) :
    processRecord st r =
      ⟨st.permits ++ [normalizeRecord r], getPermitId r :: st.seen⟩ := by
  unfold processRecord
  rw [if_neg h]

/-- The normalized record keeps the raw record's computed id. -/
lemma pn_normalizeRecord (r : RawRecord) :
    (normalizeRecord r).permit_number = getPermitId r := rfl

/-- Processing a record never shrinks the seen set. -/
lemma seen_subset_processRecord (st : ScrState) (r : RawRecord) :
    st.seen ⊆ (processRecord st r).seen := by
  by_cases h : getPermitId r ∈ st.seen
  · rw [processRecord_skip st r h]
    exact List.Subset.refl _
  · rw [processRecord_add st r h]
    exact List.subset_cons_self _ _

/-- Unfolding one record of a page. -/
lemma processPage_cons (st : ScrState) (r : RawRecord) (rest : List RawRecord) :
    processPage st (r :: rest) = processPage (processRecord st r) rest := rfl

/-- Processing a page never shrinks the seen set. -/
lemma seen_subset_processPage (data : List RawRecord) :
    ∀ st : ScrState, st.seen ⊆ (processPage st data).seen := by
  induction data with
  | nil => intro st; exact List.Subset.refl _
  | cons r rest ih =>
    intro st
    rw [processPage_cons]
    exact (seen_subset_processRecord st r).trans (ih (processRecord st r))

/-- A processed record's id ends up in the seen set. -/
lemma getPermitId_mem_seen (st : ScrState) (r : RawRecord) :
    getPermitId r ∈ (processRecord st r).seen := by
  by_cases h : getPermitId r ∈ st.seen
  · rw [processRecord_skip st r h]; exact h
  · rw [processRecord_add st r h]; exact List.mem_cons_self _ _

/-- Every id of a processed page ends up in the seen set. -/
lemma page_ids_mem_seen (data : List RawRecord) :
    ∀ st : ScrState, ∀ r ∈ data, getPermitId r ∈ (processPage st data).seen := by
  induction data with
  | nil => intro st r hr; simp at hr
  | cons q rest ih =>
    intro st r hr
    rw [processPage_cons]
    rcases List.mem_cons.mp hr with h | h
    · rw [h]
      exact seen_subset_processPage rest (processRecord st q)
        (getPermitId_mem_seen st q)
    · exact ih (processRecord st q) r h

/-- A page all of whose ids were already seen changes nothing. -/
lemma processPage_skip (data : List RawRecord) :
    ∀ st : ScrState, (∀ r ∈ data, getPermitId r ∈ st.seen) →
      processPage st data = st := by
  induction data with
  | nil => intro st _; rfl
  | cons q rest ih =>
    intro st h
    rw [processPage_cons, processRecord_skip st q (h q (List.mem_cons_self q rest))]
    exact ih st (fun r hr => h r (List.mem_cons_of_mem q hr))

/-- One record preserves the dedup invariant. -/
lemma scrInv_processRecord (st : ScrState) (r : RawRecord) (h : ScrInv st) :
    ScrInv (processRecord st r) := by
  by_cases hm : getPermitId r ∈ st.seen
  · rw [processRecord_skip st r hm]; exact h
  · rw [processRecord_add st r hm]
    obtain ⟨h1, h2⟩ := h
    constructor
    · show ((st.permits ++ [normalizeRecord r]).map PermitRecord.permit_number).Nodup
      rw [List.map_append, List.nodup_append]
      refine ⟨h1, by simp, ?_⟩
      intro a ha hb
      have hb' : a = getPermitId r := by
        simpa [pn_normalizeRecord] using hb
      exact hm (hb' ▸ h2 a ha)
    · intro s hs
      rw [show (⟨st.permits ++ [normalizeRecord r],
            getPermitId r :: st.seen⟩ : ScrState).permits =
          st.permits ++ [normalizeRecord r] from rfl, List.map_append] at hs
      rcases List.mem_append.mp hs with h' | h'
      · exact List.mem_cons_of_mem _ (h2 s h')
      · have hs' : s = getPermitId r := by
          simpa [pn_normalizeRecord] using h'
        rw [hs']
        exact List.mem_cons_self _ _

/-- A page preserves the dedup invariant. -/
lemma scrInv_processPage (data : List RawRecord) :
    ∀ st : ScrState, ScrInv st → ScrInv (processPage st data) := by
  induction data with
  | nil => intro st h; exact h
  | cons r rest ih =>
    intro st h
    rw [processPage_cons]
    exact ih (processRecord st r) (scrInv_processRecord st r h)

/-- A whole sequence of pages preserves the dedup invariant. -/
lemma scrInv_foldPages (pages : List (List RawRecord)) :
    ∀ st : ScrState, ScrInv st → ScrInv (pages.foldl processPage st) := by
  induction pages with
  | nil => intro st h; exact h
  | cons p rest ih =>
    intro st h
    rw [List.foldl_cons]
    exact ih (processPage st p) (scrInv_processPage p st h)

/-- A fresh scraper satisfies the dedup invariant. -/
lemma scrInv_fresh : ScrInv freshScraper :=
  ⟨List.nodup_nil, by simp [freshScraper]⟩

/-- Folding pages never shrinks the seen set. -/
lemma seen_subset_foldPages (pages : List (List RawRecord)) :
    ∀ st : ScrState, st.seen ⊆ (pages.foldl processPage st).seen := by
  induction pages with
  | nil => intro st; exact List.Subset.refl _
  | cons p rest ih =>
    intro st
    rw [List.foldl_cons]
    exact (seen_subset_processPage p st).trans (ih (processPage st p))

/-- Every id of every processed page ends up in the final seen set. -/
lemma mem_pages_ids_seen (pages : List (List RawRecord)) :
    ∀ st : ScrState, ∀ p ∈ pages, ∀ r ∈ p,
      getPermitId r ∈ (pages.foldl processPage st).seen := by
  induction pages with
  | nil => intro st p hp; simp at hp
  | cons q rest ih =>
    intro st p hp r hr
    rw [List.foldl_cons]
    rcases List.mem_cons.mp hp with h | h
    · rw [h] at hr
      exact seen_subset_foldPages rest (processPage st q)
        (page_ids_mem_seen q st r hr)
    · exact ih (processPage st q) p h r hr

/-- C6: within one adapter run from a fresh session state, the result
sequence's ids are pairwise distinct whatever pages arrive, and re-fetching
a page identical to an earlier one changes nothing — no duplicate ids are
added. -/
theorem claim_c6_dedup (pages : List (List RawRecord)) :
    ((pages.foldl processPage freshScraper).permits.map
      PermitRecord.permit_number).Nodup ∧
    ∀ p ∈ pages,
      (pages ++ [p]).foldl processPage freshScraper =
        pages.foldl processPage freshScraper := by
  constructor
  · exact (scrInv_foldPages pages freshScraper scrInv_fresh).1
  · intro p hp
    rw [List.foldl_append]
    show processPage (pages.foldl processPage freshScraper) p = _
    exact processPage_skip p _
      (fun r hr => mem_pages_ids_seen pages freshScraper p hp r hr)

/-- C6 witness: a concrete two-record page has distinct result ids and
re-fetching it adds nothing. -/
theorem claim_c6_dedup_witness :
    ((([[sampleRaw 0, sampleRaw 1]].foldl processPage freshScraper).permits.map
      PermitRecord.permit_number).Nodup) ∧
    ([[sampleRaw 0, sampleRaw 1]] ++ [[sampleRaw 0, sampleRaw 1]]).foldl
        processPage freshScraper =
      [[sampleRaw 0, sampleRaw 1]].foldl processPage freshScraper := by
  have h := claim_c6_dedup [[sampleRaw 0, sampleRaw 1]]
  exact ⟨h.1, h.2 [sampleRaw 0, sampleRaw 1] (List.mem_singleton.mpr rfl)⟩

/-- Reflexivity of the fresh-extension relation. -/
lemma extendsFresh_refl (st : ScrState) : ExtendsFresh st st :=
  ⟨List.Subset.refl _, [], by simp, by simp⟩

/-- Transitivity of the fresh-extension relation. -/
lemma extendsFresh_trans {a b c : ScrState}
    (h1 : ExtendsFresh a b) (h2 : ExtendsFresh b c) : ExtendsFresh a c := by
  obtain ⟨s1, t1, p1, f1⟩ := h1
  obtain ⟨s2, t2, p2, f2⟩ := h2
  refine ⟨s1.trans s2, t1 ++ t2, ?_, ?_⟩
  · rw [p2, p1, List.append_assoc]
  · intro rec hrec
    rcases List.mem_append.mp hrec with h | h
    · exact f1 rec h
    · exact fun hmem => f2 rec h (s1 hmem)

/-- One record freshly extends the state. -/
lemma extendsFresh_processRecord (st : ScrState) (r : RawRecord) :
    ExtendsFresh st (processRecord st r) := by
  by_cases h : getPermitId r ∈ st.seen
  · rw [processRecord_skip st r h]; exact extendsFresh_refl st
  · rw [processRecord_add st r h]
    refine ⟨List.subset_cons_self _ _, [normalizeRecord r], rfl, ?_⟩
    intro rec hrec
    have hr : rec = normalizeRecord r := by simpa using hrec
    rw [hr, pn_normalizeRecord]
    exact h

/-- One page freshly extends the state. -/
lemma extendsFresh_processPage (data : List RawRecord) :
    ∀ st : ScrState, ExtendsFresh st (processPage st data) := by
  induction data with
  | nil => intro st; exact extendsFresh_refl st
  | cons r rest ih =>
    intro st
    rw [processPage_cons]
    exact extendsFresh_trans (extendsFresh_processRecord st r)
      (ih (processRecord st r))

/-- One unfolding of `scrape_permits`' while loop. -/
lemma scrapeLoop_succ (fetch : Nat → FetchOutcome) (mp fuel : Nat)
    (st : LoopState) :
    scrapeLoop fetch mp (fuel + 1) st =
      if st.totalFetched < mp then
        match fetch st.offset with
        | .success data =>
          if data.isEmpty then st
          else
            if data.length < charlotteBatchSize then
              ⟨processPage st.scr data, st.offset,
               st.totalFetched + data.length, 0, st.partialSaved⟩
            else
              scrapeLoop fetch mp fuel
                ⟨processPage st.scr data, st.offset + charlotteBatchSize,
                 st.totalFetched + data.length, 0, st.partialSaved⟩
        | .failure =>
          if maxConsecutiveFailures ≤ st.consecFailures + 1 then
            ⟨st.scr, st.offset, st.totalFetched, st.consecFailures + 1,
             !st.scr.permits.isEmpty⟩
          else
            scrapeLoop fetch mp fuel
              ⟨st.scr, st.offset + charlotteBatchSize, st.totalFetched,
               st.consecFailures + 1, st.partialSaved⟩
      else st := rfl

/-- The loop step when the fetch at the current offset succeeds. -/
lemma scrapeLoop_step_success (fetch : Nat → FetchOutcome) (mp fuel : Nat)
    (st : LoopState) (data : List RawRecord)
    (hf : fetch st.offset = .success data) :
    scrapeLoop fetch mp (fuel + 1) st =
      if st.totalFetched < mp then
        if data.isEmpty then st
        else
          if data.length < charlotteBatchSize then
            ⟨processPage st.scr data, st.offset,
             st.totalFetched + data.length, 0, st.partialSaved⟩
          else
            scrapeLoop fetch mp fuel
              ⟨processPage st.scr data, st.offset + charlotteBatchSize,
               st.totalFetched + data.length, 0, st.partialSaved⟩
      else st := by
  rw [scrapeLoop_succ, hf]

/-- The loop step when the fetch at the current offset fails. -/
lemma scrapeLoop_step_failure (fetch : Nat → FetchOutcome) (mp fuel : Nat)
    (st : LoopState) (hf : fetch st.offset = .failure) :
    scrapeLoop fetch mp (fuel + 1) st =
      if st.totalFetched < mp then
        if maxConsecutiveFailures ≤ st.consecFailures + 1 then
          ⟨st.scr, st.offset, st.totalFetched, st.consecFailures + 1,
           !st.scr.permits.isEmpty⟩
        else
          scrapeLoop fetch mp fuel
            ⟨st.scr, st.offset + charlotteBatchSize, st.totalFetched,
             st.consecFailures + 1, st.partialSaved⟩
      else st := by
  rw [scrapeLoop_succ, hf]

/-- The whole loop freshly extends the instance state it starts from. -/
lemma extendsFresh_scrapeLoop (fetch : Nat → FetchOutcome) (mp : Nat) :
    ∀ fuel ls, ExtendsFresh ls.scr (scrapeLoop fetch mp fuel ls).scr := by
  intro fuel
  induction fuel with
  | zero => intro ls; exact extendsFresh_refl _
  | succ fuel ih =>
    intro ls
    cases hf : fetch ls.offset with
    | success data =>
      rw [scrapeLoop_step_success fetch mp fuel ls data hf]
      by_cases hc : ls.totalFetched < mp
      · rw [if_pos hc]
        by_cases he : data.isEmpty = true
        · rw [if_pos he]; exact extendsFresh_refl _
        · rw [if_neg he]
          by_cases hl : data.length < charlotteBatchSize
          · rw [if_pos hl]
            exact extendsFresh_processPage data ls.scr
          · rw [if_neg hl]
            exact extendsFresh_trans (extendsFresh_processPage data ls.scr)
              (ih ⟨processPage ls.scr data, ls.offset + charlotteBatchSize,
                ls.totalFetched + data.length, 0, ls.partialSaved⟩)
      · rw [if_neg hc]; exact extendsFresh_refl _
    | failure =>
      rw [scrapeLoop_step_failure fetch mp fuel ls hf]
      by_cases hc : ls.totalFetched < mp
      · rw [if_pos hc]
        by_cases ht : maxConsecutiveFailures ≤ ls.consecFailures + 1
        · rw [if_pos ht]; exact extendsFresh_refl _
        · rw [if_neg ht]
          exact ih ⟨ls.scr, ls.offset + charlotteBatchSize, ls.totalFetched,
            ls.consecFailures + 1, ls.partialSaved⟩
      · rw [if_neg hc]; exact extendsFresh_refl _

/-- A whole `scrape_permits` call freshly extends the instance state. -/
lemma extendsFresh_scrapePermits (scr : ScrState) (fetch : Nat → FetchOutcome)
    (mp : Nat) : ExtendsFresh scr (scrapePermits scr fetch mp).scr :=
  extendsFresh_scrapeLoop fetch mp _ ⟨scr, 0, 0, 0, false⟩

/-- C10: instance state accumulates monotonically across calls: a second
`scrape_permits` call on the state left by a first call returns the first
call's permit list as a prefix (so it contains every earlier record), and an
id already in the seen set gains no further occurrence in the permit list. -/
theorem claim_c10_state_accumulates (f1 f2 : Nat → FetchOutcome)
    (mp1 mp2 : Nat) :
    (∃ t, (scrapePermits (scrapePermits freshScraper f1 mp1).scr f2 mp2).scr.permits
        = (scrapePermits freshScraper f1 mp1).scr.permits ++ t) ∧
    (∀ r ∈ (scrapePermits freshScraper f1 mp1).scr.permits,
      r ∈ (scrapePermits (scrapePermits freshScraper f1 mp1).scr f2 mp2).scr.permits) ∧
    (∀ s ∈ (scrapePermits freshScraper f1 mp1).scr.seen,
      ((scrapePermits (scrapePermits freshScraper f1 mp1).scr f2 mp2).scr.permits.map
          PermitRecord.permit_number).count s =
        ((scrapePermits freshScraper f1 mp1).scr.permits.map
          PermitRecord.permit_number).count s) := by
  obtain ⟨hsub, t, hperm, hfresh⟩ :=
    extendsFresh_scrapePermits (scrapePermits freshScraper f1 mp1).scr f2 mp2
  refine ⟨⟨t, hperm⟩, ?_, ?_⟩
  · intro r hr
    rw [hperm]
    exact List.mem_append_left t hr
  · intro s hs
    rw [hperm, List.map_append, List.count_append]
    have hz : ((t.map PermitRecord.permit_number).count s) = 0 := by
      rw [List.count_eq_zero]
      intro hmem
      rcases List.mem_map.mp hmem with ⟨rec, hrec, hpn⟩
      exact hfresh rec hrec (hpn ▸ hs)
    rw [hz, Nat.add_zero]

/-- A page of records with fresh, pairwise distinct ids is appended whole. -/
lemma processPage_fresh_append (data : List RawRecord) :
    ∀ st : ScrState, (∀ r ∈ data, getPermitId r ∉ st.seen) →
      (data.map getPermitId).Nodup →
      (processPage st data).permits = st.permits ++ data.map normalizeRecord := by
  induction data with
  | nil => intro st _ _; simp [processPage]
  | cons r rest ih =>
    intro st hfresh hnodup
    rw [List.map_cons, List.nodup_cons] at hnodup
    obtain ⟨hnotin, hnd⟩ := hnodup
    rw [processPage_cons,
      processRecord_add st r (hfresh r (List.mem_cons_self r rest))]
    have hrest : ∀ r' ∈ rest, getPermitId r' ∉ getPermitId r :: st.seen := by
      intro r' hr' hmem
      rcases List.mem_cons.mp hmem with he | he
      · exact hnotin (he ▸ List.mem_map_of_mem getPermitId hr')
      · exact hfresh r' (List.mem_cons_of_mem r hr') he
    rw [ih ⟨st.permits ++ [normalizeRecord r], getPermitId r :: st.seen⟩ hrest hnd]
    simp

/-- The seen set after a page is contained in the page's ids plus the
starting seen set. -/
lemma seen_processPage_subset (data : List RawRecord) :
    ∀ st : ScrState,
      (processPage st data).seen ⊆ data.map getPermitId ++ st.seen := by
  induction data with
  | nil =>
    intro st s hs
    exact List.mem_append_right _ hs
  | cons r rest ih =>
    intro st s hs
    rw [processPage_cons] at hs
    have h2 : (processRecord st r).seen ⊆ getPermitId r :: st.seen := by
      by_cases h : getPermitId r ∈ st.seen
      · rw [processRecord_skip st r h]; exact List.subset_cons_self _ _
      · rw [processRecord_add st r h]; exact List.Subset.refl _
    rcases List.mem_append.mp (ih (processRecord st r) hs) with h' | h'
    · refine List.mem_append_left _ ?_
      rw [List.map_cons]
      exact List.mem_cons_of_mem _ h'
    · rcases List.mem_cons.mp (h2 h') with h'' | h''
      · refine List.mem_append_left _ ?_
        rw [List.map_cons, h'']
        exact List.mem_cons_self _ _
      · exact List.mem_append_right _ h''

/-- A page never empties a nonempty permit list. -/
lemma processPage_permits_ne_nil (data : List RawRecord) (st : ScrState)
    (h : st.permits ≠ []) : (processPage st data).permits ≠ [] := by
  obtain ⟨-, t, hp, -⟩ := extendsFresh_processPage data st
  rw [hp]
  intro he
  exact h (List.append_eq_nil.mp he).1

/-- A nonempty first page on a fresh scraper leaves a nonempty permit
list. -/
lemma processPage_fresh_ne_nil (r : RawRecord) (rest : List RawRecord) :
    (processPage freshScraper (r :: rest)).permits ≠ [] := by
  rw [processPage_cons,
    processRecord_add freshScraper r (by simp [freshScraper])]
  exact processPage_permits_ne_nil rest _ (by simp)

/-- The partial-save scenario, executed: two full pages then three failed
fetches end the loop with the two pages collected, the failure counter at
the threshold, and the partial save taken iff permits were collected. -/
lemma twoPages_run (p1 p2 : List RawRecord)
    (h1 : p1.length = charlotteBatchSize)
    (h2 : p2.length = charlotteBatchSize) :
    scrapePermits freshScraper (twoPagesThenFail p1 p2) 5000 =
      ⟨processPage (processPage freshScraper p1) p2, 4000, 2000, 3,
       !(processPage (processPage freshScraper p1) p2).permits.isEmpty⟩ := by
  have hne1 : ¬(p1.isEmpty = true) := by
    rw [List.isEmpty_iff]
    intro he
    rw [he] at h1
    simp [charlotteBatchSize] at h1
  have hne2 : ¬(p2.isEmpty = true) := by
    rw [List.isEmpty_iff]
    intro he
    rw [he] at h2
    simp [charlotteBatchSize] at h2
  have hl1 : ¬(p1.length < charlotteBatchSize) := by rw [h1]; exact lt_irrefl _
  have hl2 : ¬(p2.length < charlotteBatchSize) := by rw [h2]; exact lt_irrefl _
  have step1 : scrapeLoop (twoPagesThenFail p1 p2) 5000 18
      ⟨freshScraper, 0, 0, 0, false⟩ =
      scrapeLoop (twoPagesThenFail p1 p2) 5000 17
        ⟨processPage freshScraper p1, 1000, 1000, 0, false⟩ := by
    rw [show (18 : Nat) = 17 + 1 from rfl,
      scrapeLoop_step_success (twoPagesThenFail p1 p2) 5000 17
        ⟨freshScraper, 0, 0, 0, false⟩ p1 rfl,
      if_pos (by norm_num : (0 : Nat) < 5000),
      if_neg hne1, if_neg hl1]
    congr 1
    simp [charlotteBatchSize, h1]
  have step2 : scrapeLoop (twoPagesThenFail p1 p2) 5000 17
      ⟨processPage freshScraper p1, 1000, 1000, 0, false⟩ =
      scrapeLoop (twoPagesThenFail p1 p2) 5000 16
        ⟨processPage (processPage freshScraper p1) p2, 2000, 2000, 0, false⟩ := by
    rw [show (17 : Nat) = 16 + 1 from rfl,
      scrapeLoop_step_success (twoPagesThenFail p1 p2) 5000 16
        ⟨processPage freshScraper p1, 1000, 1000, 0, false⟩ p2 rfl,
      if_pos (by norm_num : (1000 : Nat) < 5000),
      if_neg hne2, if_neg hl2]
    congr 1
    simp [charlotteBatchSize, h2]
  have step3 : scrapeLoop (twoPagesThenFail p1 p2) 5000 16
      ⟨processPage (processPage freshScraper p1) p2, 2000, 2000, 0, false⟩ =
      scrapeLoop (twoPagesThenFail p1 p2) 5000 15
        ⟨processPage (processPage freshScraper p1) p2, 3000, 2000, 1, false⟩ := by
    rw [show (16 : Nat) = 15 + 1 from rfl,
      scrapeLoop_step_failure (twoPagesThenFail p1 p2) 5000 15
        ⟨processPage (processPage freshScraper p1) p2, 2000, 2000, 0, false⟩ rfl,
      if_pos (by norm_num : (2000 : Nat) < 5000),
      if_neg (by norm_num [maxConsecutiveFailures] :
        ¬(maxConsecutiveFailures ≤ (0 : Nat) + 1))]
    simp [charlotteBatchSize]
  have step4 : scrapeLoop (twoPagesThenFail p1 p2) 5000 15
      ⟨processPage (processPage freshScraper p1) p2, 3000, 2000, 1, false⟩ =
      scrapeLoop (twoPagesThenFail p1 p2) 5000 14
        ⟨processPage (processPage freshScraper p1) p2, 4000, 2000, 2, false⟩ := by
    rw [show (15 : Nat) = 14 + 1 from rfl,
      scrapeLoop_step_failure (twoPagesThenFail p1 p2) 5000 14
        ⟨processPage (processPage freshScraper p1) p2, 3000, 2000, 1, false⟩ rfl,
      if_pos (by norm_num : (2000 : Nat) < 5000),
      if_neg (by norm_num [maxConsecutiveFailures] :
        ¬(maxConsecutiveFailures ≤ (1 : Nat) + 1))]
    simp [charlotteBatchSize]
  have step5 : scrapeLoop (twoPagesThenFail p1 p2) 5000 14
      ⟨processPage (processPage freshScraper p1) p2, 4000, 2000, 2, false⟩ =
      ⟨processPage (processPage freshScraper p1) p2, 4000, 2000, 3,
       !(processPage (processPage freshScraper p1) p2).permits.isEmpty⟩ := by
    rw [show (14 : Nat) = 13 + 1 from rfl,
      scrapeLoop_step_failure (twoPagesThenFail p1 p2) 5000 13
        ⟨processPage (processPage freshScraper p1) p2, 4000, 2000, 2, false⟩ rfl,
      if_pos (by norm_num : (2000 : Nat) < 5000),
      if_pos (by norm_num [maxConsecutiveFailures] :
        maxConsecutiveFailures ≤ (2 : Nat) + 1)]
  show scrapeLoop (twoPagesThenFail p1 p2) 5000 18
    ⟨freshScraper, 0, 0, 0, false⟩ = _
  rw [step1, step2, step3, step4, step5]

/-- C7: after two full pages and three consecutive failed fetches, the
session stops with `partial = true`, its state carries exactly the records
collected from the two successful pages, and when the two pages' ids are
pairwise distinct the result is literally both pages normalized in order —
not zero records. -/
theorem claim_c7_partial_save (p1 p2 : List RawRecord)
    (h1 : p1.length = charlotteBatchSize)
    (h2 : p2.length = charlotteBatchSize) :
    (scrapePermits freshScraper (twoPagesThenFail p1 p2) 5000).partialSaved = true ∧
    (scrapePermits freshScraper (twoPagesThenFail p1 p2) 5000).scr =
      processPage (processPage freshScraper p1) p2 ∧
    (((p1 ++ p2).map getPermitId).Nodup →
      (scrapePermits freshScraper (twoPagesThenFail p1 p2) 5000).scr.permits =
        p1.map normalizeRecord ++ p2.map normalizeRecord) := by
  have hrun := twoPages_run p1 p2 h1 h2
  have hne : (processPage (processPage freshScraper p1) p2).permits ≠ [] := by
    cases p1 with
    | nil => simp [charlotteBatchSize] at h1
    | cons r rest =>
      exact processPage_permits_ne_nil p2 _ (processPage_fresh_ne_nil r rest)
  refine ⟨?_, ?_, ?_⟩
  · rw [hrun]
    show (!(processPage (processPage freshScraper p1) p2).permits.isEmpty) = true
    cases hb : (processPage (processPage freshScraper p1) p2).permits.isEmpty
    · rfl
    · exact absurd (List.isEmpty_iff.mp hb) hne
  · rw [hrun]
  · intro hnodup
    rw [hrun]
    show (processPage (processPage freshScraper p1) p2).permits = _
    rw [List.map_append, List.nodup_append] at hnodup
    obtain ⟨hn1, hn2, hdisj⟩ := hnodup
    have e1 : (processPage freshScraper p1).permits =
        freshScraper.permits ++ p1.map normalizeRecord :=
      processPage_fresh_append p1 freshScraper
        (by intro r hr; simp [freshScraper]) hn1
    have hfresh2 : ∀ r ∈ p2,
        getPermitId r ∉ (processPage freshScraper p1).seen := by
      intro r hr hmem
      rcases List.mem_append.mp (seen_processPage_subset p1 freshScraper hmem)
        with h' | h'
      · exact hdisj h' (List.mem_map_of_mem getPermitId hr)
      · simp [freshScraper] at h'
    have e2 := processPage_fresh_append p2 (processPage freshScraper p1)
      hfresh2 hn2
    rw [e2, e1]
    simp [freshScraper]

/-- C7 witness: two concrete full pages with distinct ids followed by
failures produce `partial = true` and exactly both pages' records. -/
theorem claim_c7_partial_save_witness :
    (scrapePermits freshScraper (twoPagesThenFail samplePage1 samplePage2)
      5000).partialSaved = true ∧
    (scrapePermits freshScraper (twoPagesThenFail samplePage1 samplePage2)
      5000).scr.permits =
      samplePage1.map normalizeRecord ++ samplePage2.map normalizeRecord := by
  have hlen1 : samplePage1.length = charlotteBatchSize := by simp [samplePage1]
  have hlen2 : samplePage2.length = charlotteBatchSize := by simp [samplePage2]
  have h := claim_c7_partial_save samplePage1 samplePage2 hlen1 hlen2
  refine ⟨h.1, h.2.2 ?_⟩
  have key : (samplePage1 ++ samplePage2).map getPermitId =
      (List.range (charlotteBatchSize + charlotteBatchSize)).map
        (fun i => String.mk (List.replicate (i + 1) 'a')) := by
    rw [List.map_append]
    unfold samplePage1 samplePage2
    rw [List.map_map, List.map_map, List.range_add, List.map_append,
      List.map_map]
    refine congrArg₂ List.append ?_ ?_
    · exact List.map_congr_left (fun i _ => rfl)
    · exact List.map_congr_left (fun i _ => rfl)
  rw [key]
  refine List.Nodup.map ?_ (List.nodup_range _)
  intro i j hij
  have hd : List.replicate (i + 1) 'a' = List.replicate (j + 1) 'a' := by
    have hdata := congrArg String.data hij
    simpa using hdata
  have hl := congrArg List.length hd
  simp [List.length_replicate] at hl
  omega

/-- C10 witness: after a first call collecting one record, a second call
keeps the record, extends the list, and does not add the seen id again. -/
theorem claim_c10_state_accumulates_witness :
    (∃ t, (scrapePermits (scrapePermits freshScraper
          (fun o => if o = 0 then .success [sampleRaw 0] else .failure)
          5000).scr
        (fun o => if o = 0 then .success [sampleRaw 0] else .failure)
        5000).scr.permits
      = (scrapePermits freshScraper
          (fun o => if o = 0 then .success [sampleRaw 0] else .failure)
          5000).scr.permits ++ t) ∧
    normalizeRecord (sampleRaw 0) ∈
      (scrapePermits (scrapePermits freshScraper
          (fun o => if o = 0 then .success [sampleRaw 0] else .failure)
          5000).scr
        (fun o => if o = 0 then .success [sampleRaw 0] else .failure)
        5000).scr.permits ∧
    ((scrapePermits (scrapePermits freshScraper
          (fun o => if o = 0 then .success [sampleRaw 0] else .failure)
          5000).scr
        (fun o => if o = 0 then .success [sampleRaw 0] else .failure)
        5000).scr.permits.map PermitRecord.permit_number).count
        (getPermitId (sampleRaw 0)) =
      ((scrapePermits freshScraper
          (fun o => if o = 0 then .success [sampleRaw 0] else .failure)
          5000).scr.permits.map PermitRecord.permit_number).count
        (getPermitId (sampleRaw 0)) := by
  have h := claim_c10_state_accumulates
    (fun o => if o = 0 then .success [sampleRaw 0] else .failure)
    (fun o => if o = 0 then .success [sampleRaw 0] else .failure) 5000 5000
  exact ⟨h.1, h.2.1 (normalizeRecord (sampleRaw 0)) (by decide),
    h.2.2 (getPermitId (sampleRaw 0)) (by decide)⟩

/-- C9 counterexample: the normalization of a raw record with absent issue
date and status fills both fields with the sentinel `'N/A'`, not the claimed
`'unknown'`. -/
theorem claim_c9_sentinel_counterexample :
    (normalizeRecord ⟨none, none, none, none, none, none, none, none⟩).status
      = "N/A" ∧
    (normalizeRecord
      ⟨none, none, none, none, none, none, none, none⟩).issued_date = "N/A" ∧
    ("N/A" : String) ≠ "unknown" :=
  ⟨rfl, rfl, by decide⟩

/-- C9 (amended): the numeric value defaults to 0 when the raw cost is
absent or unparsable; the issue-date and status fields carry the sentinel
`'N/A'` (not `'unknown'`) when the source value is absent or unparsable; a
non-sentinel issue date is an ISO `YYYY-MM-DD` string. -/
theorem claim_c9_normalization_defaults :
    (∀ r : RawRecord, r.cost = none → (normalizeRecord r).value = 0) ∧
    (∀ s : String, parseFloat? (cleanCost s) = none →
      parseCost (.str s) = 0) ∧
    formatDate none = "N/A" ∧
    (∀ s : String, s ≠ "" → parseIsoDate? (datePartOf s) = none →
      formatDate (some s) = "N/A") ∧
    (∀ d : Option String, formatDate d = "N/A" ∨
      (parseIsoDate? (formatDate d)).isSome = true) ∧
    (∀ r : RawRecord, r.status = none → (normalizeRecord r).status = "N/A") ∧
    (∀ r : RawRecord, r.issued_date = none →
      (normalizeRecord r).issued_date = "N/A") := by
  refine ⟨?_, ?_, rfl, ?_, ?_, ?_, ?_⟩
  · intro r h
    simp [normalizeRecord, h, costOrZero, parseCost]
  · intro s hp
    by_cases hs : s = ""
    · simp [parseCost, hs]
    · simp [parseCost, hs, hp]
  · intro s hs hp
    simp [formatDate, hs, hp]
  · intro d
    cases d with
    | none => exact Or.inl rfl
    | some s =>
      by_cases hs : s = ""
      · exact Or.inl (by simp [formatDate, hs])
      · cases hq : parseIsoDate? (datePartOf s) with
        | none => exact Or.inl (by simp [formatDate, hs, hq])
        | some v =>
          refine Or.inr ?_
          simp [formatDate, hs, hq]
  · intro r h
    simp [normalizeRecord, h, pyOrStr]
  · intro r h
    simp [normalizeRecord, h, formatDate]

/-- C9 witness: the defaults evaluated at concrete absent and unparsable
inputs. -/
theorem claim_c9_normalization_defaults_witness :
    (normalizeRecord
      ⟨some "P1", none, none, none, none, none, none, none⟩).value = 0 ∧
    parseCost (.str "abc") = 0 ∧
    formatDate (some "hello") = "N/A" ∧
    (formatDate (some "2024-01-05") = "N/A" ∨
      (parseIsoDate? (formatDate (some "2024-01-05"))).isSome = true) ∧
    (normalizeRecord
      ⟨some "P1", none, none, none, none, none, none, none⟩).status = "N/A" ∧
    (normalizeRecord
      ⟨some "P1", none, none, none, none, none, none,
        none⟩).issued_date = "N/A" := by
  have h := claim_c9_normalization_defaults
  exact ⟨h.1 _ rfl, h.2.1 "abc" (by decide), h.2.2.2.1 "hello" (by decide)
      (by decide),
    h.2.2.2.2.1 (some "2024-01-05"), h.2.2.2.2.2.1 _ rfl,
    h.2.2.2.2.2.2 _ rfl⟩

end Harvest
